import Mathlib

/-!
Shallow embedding of `src/SHICoPIC-main/Netlify/functions/enhance-prompt.js`.

The JavaScript module implements a small HTTP relay: a round-robin proxy
picker over a pool of proxy base URLs, per-proxy temporary "mark-down"
health records, a bounded retry loop with exponential backoff, and a
Netlify handler shaping the final HTTP response.

Modelling conventions:
  - `Date.now()` timestamps are `Nat` milliseconds; time is threaded
    explicitly through the retry loop (each fetch advances the clock by an
    oracle-supplied latency, each backoff wait by the computed delay).
  - The upstream network is an oracle `env : Nat → FetchOutcome` giving the
    outcome of the fetch performed on each loop attempt, together with a
    latency oracle `lat : Nat → Nat`.
  - Fallible JS operations (`res.text()`, `res.json()`, fetch itself)
    are `Except String _` / failure constructors carrying the thrown
    message.
  - `JSON.stringify` of the fixed response shapes is modelled by
    `renderBody`; response bodies are kept structurally (`RespBody`) and
    rendered to the actual JSON string on demand.
  - JS `%` on numbers is truncating remainder: `Int.tmod`.
-/

/-- Per-proxy health records: the JS object `proxyHealth`, an assignment
`proxyHealth[proxyUrl] = { downUntil: t }` replaces the entry. -/
abbrev Health : Type := List (String × Nat)

/-- Resolved numeric configuration (the four `Number(process.env… || d)`
constants after successful resolution; the `Number` coercion itself is
modelled separately by `configValue`). -/
structure Config where
  MAX_RETRIES : Nat
  BACKOFF_BASE_MS : Nat
  PROXY_MARK_DOWN_MS : Nat
deriving DecidableEq

/-- The default configuration values from the source (20000 ms timeout is
absorbed into the fetch oracle). -/
def defaultConfig : Config := { MAX_RETRIES := 4, BACKOFF_BASE_MS := 400, PROXY_MARK_DOWN_MS := 45000 }

/-- Reading `proxyHealth[p]` (`undefined` when absent). -/
def healthLookup (h : Health) (p : String) : Option Nat :=
  match List.find? (fun e => e.1 == p) h with
  | some e => some e.2
  | none => none

/-- The source's `markProxyDown(proxyUrl)`: `proxyHealth[proxyUrl] = { downUntil: now() + PROXY_MARK_DOWN_MS }`. -/
def markProxyDown (cfg : Config) (h : Health) (p : String) (t : Nat) : Health :=
  (p, t + cfg.PROXY_MARK_DOWN_MS) :: List.filter (fun e => !(e.1 == p)) h

/-- The health test from `pickNextProxy`:
`!st || (st.downUntil || 0) <= now()`. -/
def isHealthy (h : Health) (t : Nat) (p : String) : Bool :=
  match healthLookup h p with
  | none => true
  | some d => decide (d ≤ t)

/-- The body of the `for` loop in `pickNextProxy`, fuelled by the remaining
iterations of `for (let i = 0; i < n; i++)`.  The cursor update is
`proxyIndex = (proxyIndex + 1) % n` (JS `%` = truncating remainder). -/
def pickLoop (proxies : List String) (h : Health) (t : Nat) : Int → Nat → Int × Option String
  | idx, 0 => (idx, none)
  | idx, fuel+1 =>
    let idx2 := (idx + 1).tmod (proxies.length : Int)
    let candidate := proxies.getD idx2.toNat ""
    if isHealthy h t candidate then (idx2, some candidate)
    else pickLoop proxies h t idx2 fuel

/-- The source's `pickNextProxy()`: round-robin over the pool starting one past the
current cursor, returning the first currently-healthy proxy, or `null`
after one full cycle.  The updated cursor is returned alongside. -/
def pickNextProxy (proxies : List String) (h : Health) (t : Nat) (idx : Int) :
    Int × Option String :=
  if proxies.length = 0 then (idx, none)
  else pickLoop proxies h t idx proxies.length

/-- Repeated selection: `k` consecutive `pickNextProxy()` calls (health and time fixed),
threading the cursor; returns the list of results. -/
def pickSeq (proxies : List String) (h : Health) (t : Nat) : Int → Nat → List (Option String)
  | _, 0 => []
  | idx, k+1 =>
    let r := pickNextProxy proxies h t idx
    r.2 :: pickSeq proxies h t r.1 k

/-- JS `String.prototype.includes`. -/
def strIncludes (s pat : String) : Bool :=
  (List.range (s.length + 1)).any (fun i => List.isPrefixOf pat.toList (s.toList.drop i))

/-- node-fetch `res.ok`: status in `[200, 300)`. -/
def resOk (status : Nat) : Bool := decide (200 ≤ status ∧ status < 300)

instance {ε α : Type} [DecidableEq ε] [DecidableEq α] : DecidableEq (Except ε α) := fun x y =>
  match x, y with
  | .ok a, .ok b =>
    if h : a = b then isTrue (by rw [h]) else isFalse (by intro hc; cases hc; exact h rfl)
  | .error a, .error b =>
    if h : a = b then isTrue (by rw [h]) else isFalse (by intro hc; cases hc; exact h rfl)
  | .ok _, .error _ => isFalse (by intro hc; cases hc)
  | .error _, .ok _ => isFalse (by intro hc; cases hc)

/-- One upstream HTTP response:  status, the `content-type` header
(`none` when absent), and the results of reading the body as text
(`res.text()`) or JSON (`res.json()`), each of which may throw. -/
structure UpResp where
  status : Nat
  contentType : Option String
  textRes : Except String String
  jsonRes : Except String String
deriving DecidableEq

/-- Outcome of `fetchWithTimeout`: either an HTTP response, or a rejection
(transport failure, or the `'timeout'` race). -/
inductive FetchOutcome where
  | resp (r : UpResp)
  | fail (msg : String)
deriving DecidableEq

/-- Successful response data: parsed JSON (kept as its serialized raw text)
or plain text. -/
inductive RData where
  | jsonData (raw : String)
  | textData (t : String)
deriving DecidableEq

/-- The `lastError` records assigned in the loop:
`{ status, text, proxy, latency }` on a non-ok response, and
`{ error: err.message, proxy, attempt }` in the catch block. -/
inductive LastErr where
  | httpErr (status : Nat) (text : String) (proxy : Option String) (latency : Nat)
  | excErr (msg : String) (proxy : Option String) (attempt : Nat)
deriving DecidableEq

/-- Structural model of each `JSON.stringify`-ed response body the handler
produces (rendered to the actual string by `renderBody`). -/
inductive RespBody where
  | emptyBody
  | onlyPost
  | targetUrlRequired
  | upstreamErrorBody (details : String)
  | successBody (proxy : Option String) (latency : Nat) (data : RData)
  | allFailed (lastError : Option LastErr)
  | internalError (msg : String)
deriving DecidableEq

/-- A Netlify function response object. -/
structure Response where
  statusCode : Nat
  body : RespBody
  headers : List (String × String)
deriving DecidableEq

/-- The headers attached to every response built inside the try block:
`{ 'Content-Type': 'application/json', 'Access-Control-Allow-Origin': '*' }`. -/
def jsonCors : List (String × String) :=
  [("Content-Type", "application/json"), ("Access-Control-Allow-Origin", "*")]

/-- The CORS preflight headers of the 204 response. -/
def corsPreflight : List (String × String) :=
  [("Access-Control-Allow-Origin", "*"),
   ("Access-Control-Allow-Methods", "POST,OPTIONS"),
   ("Access-Control-Allow-Headers", "Content-Type")]

/-- Observable events of one run of the retry loop: an upstream attempt
(with its selected proxy and effective URL) and a backoff wait. -/
inductive Ev where
  | attemptEv (attempt : Nat) (proxy : Option String) (finalUrl : String)
  | waitEv (ms : Nat)
deriving DecidableEq

/-- The effective `finalUrl`: proxy base concatenated with the target when a proxy was
selected, the raw target otherwise. -/
def finalUrlOf (proxy : Option String) (targetUrl : String) : String :=
  match proxy with
  | some p => p ++ targetUrl
  | none => targetUrl

/-- Reading the body text with `await res.text().catch(()=>'<no body>')`. -/
def textOfRes (tx : Except String String) : String :=
  match tx with
  | .ok t => t
  | .error _ => "<no body>"

/-- Classification of one attempt: either a terminal response (`return`)
or a retryable failure (5xx through a proxy, or anything that lands in the
catch block) carrying the `lastError` record. -/
inductive StepRes where
  | doneR (resp : Response)
  | retryR (le : LastErr)
deriving DecidableEq

/-- The body of one loop iteration after the fetch resolves, mirroring
lines 131–181 of the source: non-ok responses are either retried (5xx with
a proxy) or returned verbatim in status with a wrapped body; ok responses
are parsed per content type, where a throwing `res.json()`/`res.text()`
falls into the catch block, as does a fetch rejection. -/
def classifyAttempt (out : FetchOutcome) (proxyOpt : Option String)
    (attempt latency : Nat) : StepRes :=
  match out with
  | .fail msg => .retryR (.excErr msg proxyOpt attempt)
  | .resp r =>
    if resOk r.status then
      if strIncludes (r.contentType.getD "") "application/json" then
        match r.jsonRes with
        | .ok raw => .doneR ⟨200, .successBody proxyOpt latency (.jsonData raw), jsonCors⟩
        | .error msg => .retryR (.excErr msg proxyOpt attempt)
      else
        match r.textRes with
        | .ok t => .doneR ⟨200, .successBody proxyOpt latency (.textData t), jsonCors⟩
        | .error msg => .retryR (.excErr msg proxyOpt attempt)
    else
      if proxyOpt.isSome && (decide (500 ≤ r.status) && decide (r.status < 600)) then
        .retryR (.httpErr r.status (textOfRes r.textRes) proxyOpt latency)
      else
        .doneR ⟨r.status, .upstreamErrorBody (textOfRes r.textRes), jsonCors⟩

/-- Mutable state of the retry loop: the process-wide cursor, the health
map, and the current clock. -/
structure LoopSt where
  idx : Int
  health : Health
  time : Nat

/-- The retry loop (`for (let attempt = 0; attempt < MAX_RETRIES; attempt++)`),
fuelled by the remaining iterations.  On a retryable failure the selected
proxy (if any) is marked down and the loop waits
`BACKOFF_BASE_MS * 2 ** attempt` before continuing; exhaustion yields the
502 `All attempts failed` response.  Returns the response, the event
trace, and the final health map. -/
def runLoop (cfg : Config) (proxies : List String) (env : Nat → FetchOutcome)
    (lat : Nat → Nat) (targetUrl : String) :
    Nat → Nat → LoopSt → Option LastErr → List Ev → Response × List Ev × Health
  | 0, _attempt, st, lastError, trace =>
    (⟨502, .allFailed lastError, jsonCors⟩, trace, st.health)
  | fuel+1, attempt, st, _lastError, trace =>
    let pick := pickNextProxy proxies st.health st.time st.idx
    let proxyOpt := pick.2
    let tAfter := st.time + lat attempt
    let trace1 := trace ++ [.attemptEv attempt proxyOpt (finalUrlOf proxyOpt targetUrl)]
    match classifyAttempt (env attempt) proxyOpt attempt (lat attempt) with
    | .doneR resp => (resp, trace1, st.health)
    | .retryR le =>
      let health2 := match proxyOpt with
        | some p => markProxyDown cfg st.health p tAfter
        | none => st.health
      let delay := cfg.BACKOFF_BASE_MS * 2 ^ attempt
      runLoop cfg proxies env lat targetUrl fuel (attempt+1)
        ⟨pick.1, health2, tAfter + delay⟩ (some le) (trace1 ++ [.waitEv delay])

/-- The whole retry phase of the handler, starting at attempt 0 with no
recorded error. -/
def runAttempts (cfg : Config) (proxies : List String) (env : Nat → FetchOutcome)
    (lat : Nat → Nat) (targetUrl : String) (idx0 : Int) (h0 : Health) (t0 : Nat) :
    Response × List Ev × Health :=
  runLoop cfg proxies env lat targetUrl cfg.MAX_RETRIES 0 ⟨idx0, h0, t0⟩ none []

/-- The inbound POST payload after `JSON.parse` (fields other than
`targetUrl` only feed the outbound fetch, which is the oracle). -/
structure Payload where
  targetUrl : Option String
deriving DecidableEq

/-- Parsing `JSON.parse(event.body || '{}')`: either a parsed payload or a thrown
error (caught by the outermost catch). -/
inductive EventBody where
  | parses (p : Payload)
  | malformed (msg : String)
deriving DecidableEq

/-- The inbound Netlify event. -/
structure Event where
  httpMethod : String
  body : EventBody
deriving DecidableEq

/-- The source's `exports.handler`: OPTIONS preflight, 405 on other non-POST methods,
400 on a falsy `targetUrl`, 500 when `JSON.parse` throws, otherwise the
retry loop.  Note the 405 and 400 responses carry no `headers` field. -/
def handler (cfg : Config) (proxies : List String) (env : Nat → FetchOutcome)
    (lat : Nat → Nat) (ev : Event) (idx0 : Int) (h0 : Health) (t0 : Nat) : Response :=
  if ev.httpMethod = "OPTIONS" then ⟨204, .emptyBody, corsPreflight⟩
  else if ev.httpMethod ≠ "POST" then ⟨405, .onlyPost, []⟩
  else
    match ev.body with
    | .malformed msg => ⟨500, .internalError msg, jsonCors⟩
    | .parses p =>
      match p.targetUrl with
      | none => ⟨400, .targetUrlRequired, []⟩
      | some u =>
        if u = "" then ⟨400, .targetUrlRequired, []⟩
        else (runAttempts cfg proxies env lat u idx0 h0 t0).1

/- ### Numeric configuration resolution (`Number(process.env.X || d)`) -/

/-- Digits-only decimal parser used by the `Number` model. -/
def parseDigits (cs : List Char) : Option Nat :=
  match cs with
  | [] => none
  | _ =>
    if cs.all (fun c => c.isDigit) then
      some (cs.foldl (fun acc c => acc * 10 + (c.toNat - 48)) 0)
    else none

/-- Whitespace trimming on the character list of a string. -/
def jsTrim (s : String) : List Char :=
  ((s.toList.dropWhile (fun c => c.isWhitespace)).reverse.dropWhile
    (fun c => c.isWhitespace)).reverse

/-- Model of the JS `Number(string)` coercion, restricted to the integer
literals relevant here: trimmed, optional sign, decimal digits; the empty
(or all-whitespace) string coerces to `0`; anything else is `NaN`,
modelled as `none`. -/
def jsNumber (s : String) : Option Int :=
  match jsTrim s with
  | [] => some 0
  | '-' :: rest => (parseDigits rest).map (fun v => -(v : Int))
  | '+' :: rest => (parseDigits rest).map (fun v => (v : Int))
  | cs => (parseDigits cs).map (fun v => (v : Int))

/-- Resolution of `Number(process.env.X || d)`: an absent variable or the (falsy) empty
string gives `Number(d) = d`; any other string goes through `Number`,
which yields `NaN` (`none`) when it is not numeric. -/
def configValue (envVal : Option String) (dflt : Nat) : Option Int :=
  match envVal with
  | none => some dflt
  | some s => if s = "" then some dflt else jsNumber s

/-- The source's `const REQUEST_TIMEOUT_MS = Number(process.env.REQUEST_TIMEOUT_MS || 20000)`. -/
def REQUEST_TIMEOUT_MS (envVal : Option String) : Option Int := configValue envVal 20000

/-- The source's `const MAX_RETRIES = Number(process.env.MAX_RETRIES || 4)`. -/
def MAX_RETRIES (envVal : Option String) : Option Int := configValue envVal 4

/-- The source's `const BACKOFF_BASE_MS = Number(process.env.BACKOFF_BASE_MS || 400)`. -/
def BACKOFF_BASE_MS (envVal : Option String) : Option Int := configValue envVal 400

/-- The source's `const PROXY_MARK_DOWN_MS = Number(process.env.PROXY_MARK_DOWN_MS || 45_000)`. -/
def PROXY_MARK_DOWN_MS (envVal : Option String) : Option Int := configValue envVal 45000

/- ### Rendering response bodies to their `JSON.stringify` strings -/

/-- JSON string escaping of one character (the escapes relevant to the
strings exercised here). -/
def jsonEscapeChar (c : Char) : String :=
  if c = Char.ofNat 34 then String.singleton (Char.ofNat 92) ++ String.singleton (Char.ofNat 34)
  else if c = Char.ofNat 92 then String.singleton (Char.ofNat 92) ++ String.singleton (Char.ofNat 92)
  else if c = '\n' then String.singleton (Char.ofNat 92) ++ "n"
  else if c = '\r' then String.singleton (Char.ofNat 92) ++ "r"
  else if c = '\t' then String.singleton (Char.ofNat 92) ++ "t"
  else String.singleton c

/-- JSON string escaping. -/
def jsonEscape (s : String) : String := String.join (s.toList.map jsonEscapeChar)

/-- A JSON string literal. -/
def jsonStr (s : String) : String :=
  String.singleton (Char.ofNat 34) ++ jsonEscape s ++ String.singleton (Char.ofNat 34)

/-- Rendering of `proxy || null` fields. -/
def renderOpt (o : Option String) : String :=
  match o with
  | none => "null"
  | some s => jsonStr s

/-- Rendering of the `data` field: parsed JSON re-serializes to its raw
text, plain text becomes a JSON string. -/
def renderData (d : RData) : String :=
  match d with
  | .jsonData raw => raw
  | .textData t => jsonStr t

/-- Rendering of the `lastError` records. -/
def renderLastErr (e : LastErr) : String :=
  match e with
  | .httpErr st tx p lt =>
    "\x7b\"status\":" ++ toString st ++ ",\"text\":" ++ jsonStr tx ++
      ",\"proxy\":" ++ renderOpt p ++ ",\"latency\":" ++ toString lt ++ "\x7d"
  | .excErr m p a =>
    "\x7b\"error\":" ++ jsonStr m ++ ",\"proxy\":" ++ renderOpt p ++
      ",\"attempt\":" ++ toString a ++ "\x7d"

/-- Rendering of an optional `lastError`. -/
def renderOptLastErr (o : Option LastErr) : String :=
  match o with
  | none => "null"
  | some e => renderLastErr e

/-- The `JSON.stringify` output for each response body the handler builds
(the preflight body is the empty string). -/
def renderBody (b : RespBody) : String :=
  match b with
  | .emptyBody => ""
  | .onlyPost => "\x7b\"error\":\"Only POST allowed\"\x7d"
  | .targetUrlRequired => "\x7b\"error\":\"targetUrl required\"\x7d"
  | .upstreamErrorBody d =>
    "\x7b\"error\":\"Upstream returned error\",\"details\":" ++ jsonStr d ++ "\x7d"
  | .successBody p lt dt =>
    "\x7b\"success\":true,\"proxy\":" ++ renderOpt p ++ ",\"latency\":" ++ toString lt ++
      ",\"data\":" ++ renderData dt ++ "\x7d"
  | .allFailed le =>
    "\x7b\"error\":\"All attempts failed\",\"lastError\":" ++ renderOptLastErr le ++ "\x7d"
  | .internalError m =>
    "\x7b\"error\":\"Internal server error\",\"message\":" ++ jsonStr m ++ "\x7d"

/- ### Trace measurements -/

/-- The proxy the round-robin cursor selects on the `j`-th attempt of a
run whose first scan starts at pool offset `a` and on which every pick
succeeds at its first candidate. -/
def proxyAt (l : List String) (a j : Nat) : String := l.getD ((a + j) % l.length) ""

/-- Whether an event is an upstream attempt. -/
def isAttemptEv (e : Ev) : Bool :=
  match e with
  | .attemptEv _ _ _ => true
  | .waitEv _ => false

/-- Number of upstream attempts recorded in a trace. -/
def countAttempts (evs : List Ev) : Nat := List.countP isAttemptEv evs

/-- The `lastError` record produced by the `k`-th all-5xx attempt of a run
whose picks follow `proxyAt l a`. -/
def lastErrAt (rs : Nat → UpResp) (lat : Nat → Nat) (l : List String) (a k : Nat) : LastErr :=
  .httpErr (rs k).status (textOfRes (rs k).textRes) (some (proxyAt l a k)) (lat k)

/-- The event trace of attempts `attempt, …, attempt+fuel-1` of an
all-5xx run: each attempt uses the round-robin proxy `proxyAt l a k` and
waits `BACKOFF_BASE_MS * 2 ^ k`. -/
def c1TraceFrom (cfg : Config) (l : List String) (u : String) (a attempt fuel : Nat) :
    List Ev :=
  (List.range' attempt fuel).flatMap (fun k =>
    [Ev.attemptEv k (some (proxyAt l a k)) (proxyAt l a k ++ u),
     Ev.waitEv (cfg.BACKOFF_BASE_MS * 2 ^ k)])

/- ### Helper lemmas -/

theorem find?_filter_ne (p q : String) (hqp : q ≠ p) :
    ∀ (h : List (String × Nat)),
      List.find? (fun e => e.1 == q) (List.filter (fun e => !(e.1 == p)) h) =
        List.find? (fun e => e.1 == q) h := by
  intro h
  induction h with
  | nil => rfl
  | cons a tl ih =>
    rw [List.filter_cons]
    by_cases hap : a.1 = p
    · have h1 : (!(a.1 == p)) = false := by simp [hap]
      have h2 : (a.1 == q) = false := by
        simp only [beq_eq_false_iff_ne, ne_eq]
        intro hc
        exact hqp (hc ▸ hap)
      rw [h1]
      simp only [Bool.false_eq_true, if_false, List.find?_cons, h2, ih]
    · have h1 : (!(a.1 == p)) = true := by simp [hap]
      rw [h1, if_pos rfl]
      simp only [List.find?_cons, ih]

theorem healthLookup_markProxyDown (cfg : Config) (h : Health) (p : String) (t : Nat)
    (q : String) :
    healthLookup (markProxyDown cfg h p t) q =
      if q = p then some (t + cfg.PROXY_MARK_DOWN_MS) else healthLookup h q := by
  unfold healthLookup markProxyDown
  rcases eq_or_ne q p with hqp | hqp
  · subst hqp
    simp [List.find?_cons]
  · have hpq : (p == q) = false := by
      simp only [beq_eq_false_iff_ne, ne_eq]
      exact fun hc => hqp hc.symm
    simp only [List.find?_cons, hpq]
    rw [find?_filter_ne p q hqp, if_neg hqp]

theorem isHealthy_markProxyDown_self (cfg : Config) (h : Health) (p : String) (t t2 : Nat) :
    isHealthy (markProxyDown cfg h p t) t2 p =
      decide (t + cfg.PROXY_MARK_DOWN_MS ≤ t2) := by
  unfold isHealthy
  rw [healthLookup_markProxyDown, if_pos rfl]

theorem getD_mem (l : List String) (i : Nat) (h : i < l.length) : l.getD i "" ∈ l := by
  rw [List.getD_eq_getElem?_getD, List.getElem?_eq_getElem h]
  exact List.getElem_mem h

theorem getD_eq_get (l : List String) (i : Nat) (h : i < l.length) :
    l.getD i "" = l.get ⟨i, h⟩ := by
  rw [List.getD_eq_getElem?_getD, List.getElem?_eq_getElem h]
  rfl

theorem getD_inj_of_nodup (l : List String) (hl : l.Nodup) (i j : Nat)
    (hi : i < l.length) (hj : j < l.length) (h : l.getD i "" = l.getD j "") : i = j := by
  rw [getD_eq_get l i hi, getD_eq_get l j hj] at h
  have := (List.Nodup.get_inj_iff hl).mp h
  exact congrArg Fin.val this

theorem add_mod_inj (n a i j : Nat) (hi : i < n) (hj : j < n)
    (h : (a + i) % n = (a + j) % n) : i = j := by
  have hmod : i ≡ j [MOD n] := Nat.ModEq.add_left_cancel' a h
  have : i % n = j % n := hmod
  rwa [Nat.mod_eq_of_lt hi, Nat.mod_eq_of_lt hj] at this

theorem tmod_toNat_lt (a : Int) (n : Nat) (hn : 0 < n) : (a.tmod (n : Int)).toNat < n := by
  have h1 : a.tmod (n : Int) < (n : Int) := Int.tmod_lt_of_pos a (by exact_mod_cast hn)
  omega

theorem pickLoop_sound (l : List String) (h : Health) (t : Nat) :
    ∀ (fuel : Nat) (idx idx2 : Int) (q : String),
      pickLoop l h t idx fuel = (idx2, some q) → isHealthy h t q = true := by
  intro fuel
  induction fuel with
  | zero => intro idx idx2 q hq; simp [pickLoop] at hq
  | succ m ih =>
    intro idx idx2 q hq
    simp only [pickLoop] at hq
    by_cases hc : isHealthy h t (l.getD ((idx + 1).tmod (l.length : Int)).toNat "") = true
    · rw [if_pos hc] at hq
      cases hq
      exact hc
    · rw [if_neg hc] at hq
      exact ih _ _ _ hq

theorem pickNextProxy_sound (l : List String) (h : Health) (t : Nat) (idx : Int) (q : String)
    (hq : (pickNextProxy l h t idx).2 = some q) : isHealthy h t q = true := by
  unfold pickNextProxy at hq
  by_cases hn : l.length = 0
  · rw [if_pos hn] at hq; simp at hq
  · rw [if_neg hn] at hq
    exact pickLoop_sound l h t l.length idx (pickLoop l h t idx l.length).1 q
      (by rw [← hq])

theorem pickLoop_none_of_all_unhealthy (l : List String) (h : Health) (t : Nat)
    (hn : 0 < l.length) (hu : ∀ p ∈ l, isHealthy h t p = false) :
    ∀ (fuel : Nat) (idx : Int), (pickLoop l h t idx fuel).2 = none := by
  intro fuel
  induction fuel with
  | zero => intro idx; rfl
  | succ m ih =>
    intro idx
    have hmem : l.getD ((idx + 1).tmod (l.length : Int)).toNat "" ∈ l :=
      getD_mem l _ (tmod_toNat_lt _ _ hn)
    have hc := hu _ hmem
    simp only [pickLoop, hc]
    exact ih _

theorem pickNextProxy_healthy_nat (l : List String) (h : Health) (t : Nat)
    (a : Nat) (idx : Int) (hidx : idx + 1 = (a : Int)) (hn : 0 < l.length)
    (hh : isHealthy h t (l.getD (a % l.length) "") = true) :
    pickNextProxy l h t idx =
      (((a % l.length : Nat) : Int), some (l.getD (a % l.length) "")) := by
  have hne : l.length ≠ 0 := Nat.pos_iff_ne_zero.mp hn
  obtain ⟨m, hm⟩ : ∃ m, l.length = m + 1 := ⟨l.length - 1, by omega⟩
  have htm : (idx + 1).tmod (l.length : Int) = ((a % l.length : Nat) : Int) := by
    rw [hidx, ← Int.ofNat_tmod]
  have htn : ((idx + 1).tmod (l.length : Int)).toNat = a % l.length := by
    rw [htm]; exact Int.toNat_ofNat _
  unfold pickNextProxy
  rw [if_neg hne]
  conv =>
    lhs
    rw [hm]
  simp only [pickLoop]
  rw [htm, Int.toNat_ofNat, if_pos hh]

theorem pickSeq_all_healthy (l : List String) (h : Health) (t : Nat)
    (hh : ∀ p ∈ l, isHealthy h t p = true) (hn : 0 < l.length) :
    ∀ (k : Nat) (a : Nat) (idx : Int), idx + 1 = (a : Int) →
      pickSeq l h t idx k =
        (List.range k).map (fun j => some (l.getD ((a + j) % l.length) "")) := by
  intro k
  induction k with
  | zero => intro a idx _; rfl
  | succ m ih =>
    intro a idx hidx
    have hhd : isHealthy h t (l.getD (a % l.length) "") = true :=
      hh _ (getD_mem l _ (Nat.mod_lt _ hn))
    have hpick := pickNextProxy_healthy_nat l h t a idx hidx hn hhd
    have hrec := ih (a % l.length + 1) ((a % l.length : Nat) : Int) (by push_cast; ring)
    simp only [pickSeq, hpick, hrec, List.range_succ_eq_map, List.map_cons, List.map_map,
      Nat.add_zero]
    refine List.cons_eq_cons.mpr ⟨rfl, ?_⟩
    apply List.map_congr_left
    intro j _
    simp only [Function.comp_apply]
    have harg : (a % l.length + 1 + j) % l.length = (a + Nat.succ j) % l.length := by
      rw [Nat.add_assoc, Nat.mod_add_mod]
      congr 1
      omega
    rw [harg]

theorem c1TraceFrom_succ (cfg : Config) (l : List String) (u : String) (a attempt m : Nat) :
    c1TraceFrom cfg l u a attempt (m+1) =
      Ev.attemptEv attempt (some (proxyAt l a attempt)) (proxyAt l a attempt ++ u) ::
      Ev.waitEv (cfg.BACKOFF_BASE_MS * 2 ^ attempt) :: c1TraceFrom cfg l u a (attempt+1) m := by
  unfold c1TraceFrom
  rw [List.range'_succ, List.flatMap_cons]
  rfl

theorem countAttempts_c1TraceFrom (cfg : Config) (l : List String) (u : String) (a : Nat) :
    ∀ (fuel attempt : Nat), countAttempts (c1TraceFrom cfg l u a attempt fuel) = fuel := by
  intro fuel
  induction fuel with
  | zero => intro attempt; rfl
  | succ m ih =>
    intro attempt
    rw [c1TraceFrom_succ]
    simp only [countAttempts, List.countP_cons] at ih ⊢
    rw [ih (attempt + 1)]
    simp [isAttemptEv]

theorem classifyAttempt_5xx_proxy (r : UpResp) (p : String) (attempt latency : Nat)
    (h5a : 500 ≤ r.status) (h5b : r.status < 600) :
    classifyAttempt (.resp r) (some p) attempt latency =
      .retryR (.httpErr r.status (textOfRes r.textRes) (some p) latency) := by
  have hok : resOk r.status = false := by
    simp only [resOk, decide_eq_false_iff_not]
    omega
  have hcond : ((some p).isSome && (decide (500 ≤ r.status) && decide (r.status < 600))) = true := by
    simp [h5a, h5b]
  simp only [classifyAttempt]
  rw [hok, if_neg Bool.false_ne_true, hcond, if_pos rfl]

theorem classifyAttempt_client_error (r : UpResp) (pOpt : Option String)
    (attempt latency : Nat) (hok : resOk r.status = false)
    (hn5 : (pOpt.isSome && (decide (500 ≤ r.status) && decide (r.status < 600))) = false) :
    classifyAttempt (.resp r) pOpt attempt latency =
      .doneR ⟨r.status, .upstreamErrorBody (textOfRes r.textRes), jsonCors⟩ := by
  simp only [classifyAttempt]
  rw [hok, if_neg Bool.false_ne_true, hn5, if_neg Bool.false_ne_true]

theorem classifyAttempt_json_throw (r : UpResp) (pOpt : Option String)
    (attempt latency : Nat) (msg : String) (hok : resOk r.status = true)
    (hct : strIncludes (r.contentType.getD "") "application/json" = true)
    (hjs : r.jsonRes = .error msg) :
    classifyAttempt (.resp r) pOpt attempt latency = .retryR (.excErr msg pOpt attempt) := by
  simp only [classifyAttempt]
  rw [hok, if_pos rfl, hct, if_pos rfl, hjs]

theorem classifyAttempt_done_headers (out : FetchOutcome) (pOpt : Option String)
    (attempt latency : Nat) (resp : Response)
    (h : classifyAttempt out pOpt attempt latency = .doneR resp) :
    resp.headers = jsonCors := by
  cases out with
  | fail msg => simp only [classifyAttempt] at h; cases h
  | resp r =>
    simp only [classifyAttempt] at h
    by_cases hok : resOk r.status = true
    · rw [if_pos hok] at h
      by_cases hct : strIncludes (r.contentType.getD "") "application/json" = true
      · rw [if_pos hct] at h
        cases hjs : r.jsonRes with
        | ok raw => rw [hjs] at h; cases h; rfl
        | error m => rw [hjs] at h; cases h
      · rw [if_neg hct] at h
        cases htx : r.textRes with
        | ok tx => rw [htx] at h; cases h; rfl
        | error m => rw [htx] at h; cases h
    · rw [if_neg hok] at h
      by_cases hretry : (pOpt.isSome && (decide (500 ≤ r.status) && decide (r.status < 600))) = true
      · rw [if_pos hretry] at h; cases h
      · rw [if_neg hretry] at h; cases h; rfl

theorem runLoop_done_step (cfg : Config) (l : List String) (env : Nat → FetchOutcome)
    (lat : Nat → Nat) (u : String) (fuel attempt : Nat) (st : LoopSt)
    (le : Option LastErr) (tr : List Ev) (resp : Response)
    (hclass : classifyAttempt (env attempt) (pickNextProxy l st.health st.time st.idx).2
        attempt (lat attempt) = .doneR resp) :
    runLoop cfg l env lat u (fuel+1) attempt st le tr =
      (resp,
       tr ++ [.attemptEv attempt (pickNextProxy l st.health st.time st.idx).2
         (finalUrlOf (pickNextProxy l st.health st.time st.idx).2 u)],
       st.health) := by
  simp only [runLoop, hclass]

theorem runLoop_retry_step (cfg : Config) (l : List String) (env : Nat → FetchOutcome)
    (lat : Nat → Nat) (u : String) (fuel attempt : Nat) (st : LoopSt)
    (le : Option LastErr) (tr : List Ev) (le2 : LastErr)
    (hclass : classifyAttempt (env attempt) (pickNextProxy l st.health st.time st.idx).2
        attempt (lat attempt) = .retryR le2) :
    runLoop cfg l env lat u (fuel+1) attempt st le tr =
      runLoop cfg l env lat u fuel (attempt+1)
        ⟨(pickNextProxy l st.health st.time st.idx).1,
         (match (pickNextProxy l st.health st.time st.idx).2 with
          | some p => markProxyDown cfg st.health p (st.time + lat attempt)
          | none => st.health),
         st.time + lat attempt + cfg.BACKOFF_BASE_MS * 2 ^ attempt⟩
        (some le2)
        (tr ++ [.attemptEv attempt (pickNextProxy l st.health st.time st.idx).2
            (finalUrlOf (pickNextProxy l st.health st.time st.idx).2 u),
          .waitEv (cfg.BACKOFF_BASE_MS * 2 ^ attempt)]) := by
  simp only [runLoop, hclass, List.append_assoc, List.cons_append, List.nil_append]

theorem runLoop_headers (cfg : Config) (l : List String) (env : Nat → FetchOutcome)
    (lat : Nat → Nat) (u : String) :
    ∀ (fuel attempt : Nat) (st : LoopSt) (le : Option LastErr) (tr : List Ev),
      (runLoop cfg l env lat u fuel attempt st le tr).1.headers = jsonCors := by
  intro fuel
  induction fuel with
  | zero => intro attempt st le tr; rfl
  | succ m ih =>
    intro attempt st le tr
    cases hcl : classifyAttempt (env attempt) (pickNextProxy l st.health st.time st.idx).2
        attempt (lat attempt) with
    | doneR resp =>
      rw [runLoop_done_step cfg l env lat u m attempt st le tr resp hcl]
      exact classifyAttempt_done_headers _ _ _ _ _ hcl
    | retryR le2 =>
      rw [runLoop_retry_step cfg l env lat u m attempt st le tr le2 hcl]
      exact ih ..

/-- The POST-with-target path of the handler delegates to the retry loop. -/
theorem handler_post (cfg : Config) (l : List String) (env : Nat → FetchOutcome)
    (lat : Nat → Nat) (u : String) (idx0 : Int) (h0 : Health) (t0 : Nat) (hu : u ≠ "") :
    handler cfg l env lat ⟨"POST", .parses ⟨some u⟩⟩ idx0 h0 t0 =
      (runAttempts cfg l env lat u idx0 h0 t0).1 := by
  simp [handler, hu]

/- ### C4: round-robin fairness -/

/-- C4: for every pool of size N ≥ 1 with all proxies healthy, N
consecutive `pickNextProxy` calls return each proxy of the pool exactly
once before any repeats: the result sequence is a permutation of the
pool. -/
theorem c4_round_robin_fairness (l : List String) (h : Health) (t : Nat) (idx : Int)
    (hh : ∀ p ∈ l, isHealthy h t p = true) (hn : 0 < l.length) (hidx : -1 ≤ idx) :
    (pickSeq l h t idx l.length).Perm (l.map some) := by
  have h0 : 0 ≤ idx + 1 := by omega
  have hidxa : idx + 1 = (((idx + 1).toNat : Nat) : Int) := (Int.toNat_of_nonneg h0).symm
  rw [pickSeq_all_healthy l h t hh hn l.length (idx + 1).toNat idx hidxa]
  have hrot : (List.range l.length).map
      (fun j => some (l.getD (((idx + 1).toNat + j) % l.length) "")) =
      (l.rotate (idx + 1).toNat).map some := by
    apply List.ext_get
    · simp
    · intro n h1 h2
      have hn2 : n < l.length := by simpa using h1
      have hn3 : n < (l.rotate (idx + 1).toNat).length := by simpa using hn2
      have hlt : ((idx + 1).toNat + n) % l.length < l.length := Nat.mod_lt _ hn
      rw [List.get_eq_getElem, List.get_eq_getElem]
      simp only [List.getElem_map, List.getElem_range]
      have hget : (l.rotate (idx + 1).toNat)[n] =
          l.get ⟨(n + (idx + 1).toNat) % l.length, Nat.mod_lt _ hn⟩ := by
        have hg : (l.rotate (idx + 1).toNat)[n] = (l.rotate (idx + 1).toNat).get ⟨n, hn3⟩ := rfl
        rw [hg, List.get_rotate]
      rw [hget, getD_eq_get l _ hlt]
      refine congrArg (fun i => some (l.get i)) (Fin.ext ?_)
      show ((idx + 1).toNat + n) % l.length = (n + (idx + 1).toNat) % l.length
      rw [Nat.add_comm]
  rw [hrot]
  exact (List.rotate_perm l (idx + 1).toNat).map some

/-- C4 witness: a concrete three-proxy pool visited round-robin. -/
theorem c4_witness :
    (∀ p ∈ ["A", "B", "C"], isHealthy [] 0 p = true) ∧
    (pickSeq ["A", "B", "C"] [] 0 (-1) 3).Perm (["A", "B", "C"].map some) :=
  ⟨by decide, c4_round_robin_fairness ["A", "B", "C"] [] 0 (-1) (by decide) (by decide) (by decide)⟩

/- ### C5: mark-down window -/

/-- C5: after `markProxyDown(p)` at time `t`, `pickNextProxy` never
returns `p` while the clock is strictly before `t + PROXY_MARK_DOWN_MS`;
once the clock reaches the stored down-until timestamp, `p` is healthy
again with no further state change (in particular a pool holding `p`
selects it again). -/
theorem c5_markdown_window (cfg : Config) (h : Health) (p : String) (t t2 : Nat)
    (l : List String) (idx : Int) :
    (t2 < t + cfg.PROXY_MARK_DOWN_MS →
      (pickNextProxy l (markProxyDown cfg h p t) t2 idx).2 ≠ some p) ∧
    (t + cfg.PROXY_MARK_DOWN_MS ≤ t2 →
      isHealthy (markProxyDown cfg h p t) t2 p = true ∧
      (pickNextProxy [p] (markProxyDown cfg h p t) t2 idx).2 = some p) := by
  constructor
  · intro hlt hsome
    have hs := pickNextProxy_sound _ _ _ _ _ hsome
    rw [isHealthy_markProxyDown_self] at hs
    simp only [decide_eq_true_eq] at hs
    omega
  · intro hge
    have hhp : isHealthy (markProxyDown cfg h p t) t2 p = true := by
      rw [isHealthy_markProxyDown_self]
      simpa using hge
    refine ⟨hhp, ?_⟩
    unfold pickNextProxy
    rw [if_neg (by simp)]
    show (pickLoop [p] (markProxyDown cfg h p t) t2 idx 1).2 = some p
    simp only [pickLoop]
    rw [show (([p].length : Nat) : Int) = (1 : Int) from rfl, Int.tmod_one]
    rw [show ((0 : Int).toNat) = 0 from rfl, show ([p].getD 0 "") = p from rfl]
    rw [if_pos hhp]

/-- C5 witness: at `cfg = defaultConfig`, marking `"A"` down at time 100
hides it at time 45099 and it reappears at 45100. -/
theorem c5_witness :
    ((pickNextProxy ["A"] (markProxyDown defaultConfig [] "A" 100) 45099 (-1)).2 ≠ some "A") ∧
    ((pickNextProxy ["A"] (markProxyDown defaultConfig [] "A" 100) 45100 (-1)).2 = some "A") :=
  ⟨(c5_markdown_window defaultConfig [] "A" 100 45099 ["A"] (-1)).1 (by decide),
   ((c5_markdown_window defaultConfig [] "A" 100 45100 ["A"] (-1)).2 (by decide)).2⟩

/- ### C6: all proxies down -/

/-- C6: when every proxy in the pool is currently marked down (its health
test fails, i.e. its down-until timestamp is strictly in the future),
`pickNextProxy` returns `none` after its single bounded cycle, for any
cursor position. -/
theorem c6_all_down_none (l : List String) (h : Health) (t : Nat) (idx : Int)
    (hd : ∀ p ∈ l, isHealthy h t p = false) :
    (pickNextProxy l h t idx).2 = none := by
  unfold pickNextProxy
  by_cases hn : l.length = 0
  · rw [if_pos hn]
  · rw [if_neg hn]
    exact pickLoop_none_of_all_unhealthy l h t (Nat.pos_of_ne_zero hn) hd l.length idx

/-- C6 witness: a two-proxy pool fully marked down yields `none`. -/
theorem c6_witness :
    (∀ p ∈ ["A", "B"], isHealthy [("A", 10), ("B", 20)] 5 p = false) ∧
    (pickNextProxy ["A", "B"] [("A", 10), ("B", 20)] 5 (-1)).2 = none :=
  ⟨by decide, c6_all_down_none ["A", "B"] [("A", 10), ("B", 20)] 5 (-1) (by decide)⟩

/- ### C8: configuration resolution -/

/-- C8 counterexample: a present but non-numeric environment value does
not fall back to the documented default — `Number('abc')` is `NaN`
(modelled `none`), so the claim fails at `REQUEST_TIMEOUT_MS = 'abc'`. -/
theorem c8_counterexample :
    REQUEST_TIMEOUT_MS (some "abc") = none ∧
    REQUEST_TIMEOUT_MS (some "abc") ≠ some 20000 := by decide

/-- C8 amended: each configuration value uses the documented default when
the environment variable is absent or empty (the only falsy string), and
uses the parsed numeric value when the string is numeric; a present
non-numeric value instead yields `NaN` (`none`), not the default. -/
theorem c8_config_resolution (d : Nat) :
    configValue none d = some d ∧
    configValue (some "") d = some d ∧
    (∀ s v, s ≠ "" → jsNumber s = some v → configValue (some s) d = some v) ∧
    (∀ s, s ≠ "" → jsNumber s = none → configValue (some s) d = none) ∧
    REQUEST_TIMEOUT_MS none = some 20000 ∧ MAX_RETRIES none = some 4 ∧
    BACKOFF_BASE_MS none = some 400 ∧ PROXY_MARK_DOWN_MS none = some 45000 := by
  refine ⟨rfl, rfl, ?_, ?_, rfl, rfl, rfl, rfl⟩
  · intro s v hs hv
    show (if s = "" then some ((d : Nat) : Int) else jsNumber s) = some v
    rw [if_neg hs, hv]
  · intro s hs hv
    show (if s = "" then some ((d : Nat) : Int) else jsNumber s) = none
    rw [if_neg hs, hv]

/-- C8 witness: defaults apply when unset, and a numeric override is
parsed. -/
theorem c8_witness :
    configValue none 20000 = some 20000 ∧ configValue (some "7000") 20000 = some 7000 :=
  ⟨(c8_config_resolution 20000).1,
   (c8_config_resolution 20000).2.2.1 "7000" 7000 (by decide) (by decide)⟩

/- ### C9: mark-down timestamps only move forward -/

/-- C9: with a non-decreasing clock, the stored down-until timestamp for a
proxy never decreases across successive `markProxyDown` calls: each call
stores `now + PROXY_MARK_DOWN_MS`, so a later mark-down never shortens an
earlier window. -/
theorem c9_downuntil_monotone (cfg : Config) (h h2 : Health) (p : String) (t1 t2 : Nat)
    (hle : t1 ≤ t2) (d1 d2 : Nat)
    (hd1 : healthLookup (markProxyDown cfg h p t1) p = some d1)
    (hd2 : healthLookup (markProxyDown cfg h2 p t2) p = some d2) :
    d1 ≤ d2 := by
  rw [healthLookup_markProxyDown, if_pos rfl] at hd1 hd2
  simp only [Option.some.injEq] at hd1 hd2
  omega

/-- C9 witness: two successive mark-downs of `"A"` at times 100 then 500. -/
theorem c9_witness :
    healthLookup (markProxyDown defaultConfig [] "A" 100) "A" = some 45100 ∧
    healthLookup (markProxyDown defaultConfig (markProxyDown defaultConfig [] "A" 100) "A" 500)
      "A" = some 45500 ∧ (45100 : Nat) ≤ 45500 :=
  ⟨by decide, by decide,
   c9_downuntil_monotone defaultConfig [] (markProxyDown defaultConfig [] "A" 100) "A" 100 500
     (by decide) 45100 45500 (by decide) (by decide)⟩

/- ### C7: response headers -/

/-- C7 counterexample: the 405 response (and likewise the 400 one) carries
no headers at all — in particular neither `Content-Type` nor
`Access-Control-Allow-Origin` — refuting the claim that every
non-preflight response carries both. -/
theorem c7_counterexample :
    (handler defaultConfig ["A"] (fun _ => .fail "x") (fun _ => 0)
        ⟨"GET", .parses ⟨none⟩⟩ (-1) [] 0).statusCode = 405 ∧
    List.find? (fun e => e.1 == "Content-Type")
      (handler defaultConfig ["A"] (fun _ => .fail "x") (fun _ => 0)
        ⟨"GET", .parses ⟨none⟩⟩ (-1) [] 0).headers = none ∧
    List.find? (fun e => e.1 == "Access-Control-Allow-Origin")
      (handler defaultConfig ["A"] (fun _ => .fail "x") (fun _ => 0)
        ⟨"GET", .parses ⟨none⟩⟩ (-1) [] 0).headers = none ∧
    List.find? (fun e => e.1 == "Content-Type")
      (handler defaultConfig ["A"] (fun _ => .fail "x") (fun _ => 0)
        ⟨"POST", .parses ⟨none⟩⟩ (-1) [] 0).headers = none := by decide

/-- C7 amended, by inbound case: an `OPTIONS` request gets the 204
preflight with the fixed CORS header set; any other non-`POST` method gets
the 405 with no headers at all; a `POST` whose body fails `JSON.parse`
gets the 500 internal error with both the `Content-Type: application/json`
and `Access-Control-Allow-Origin: *` headers; a `POST` with a missing or
empty `targetUrl` gets the 400 with no headers at all; and every `POST`
with a non-empty `targetUrl` — whatever the retry loop's outcome (success,
upstream error, or 502 exhaustion) — gets a response carrying exactly
those two headers. -/
theorem c7_headers (cfg : Config) (proxies : List String) (env : Nat → FetchOutcome)
    (lat : Nat → Nat) (idx0 : Int) (h0 : Health) (t0 : Nat) :
    (∀ b, handler cfg proxies env lat ⟨"OPTIONS", b⟩ idx0 h0 t0 =
      ⟨204, .emptyBody, corsPreflight⟩) ∧
    (∀ m b, m ≠ "OPTIONS" → m ≠ "POST" →
      handler cfg proxies env lat ⟨m, b⟩ idx0 h0 t0 = ⟨405, .onlyPost, []⟩) ∧
    (∀ msg, handler cfg proxies env lat ⟨"POST", .malformed msg⟩ idx0 h0 t0 =
      ⟨500, .internalError msg, jsonCors⟩) ∧
    (handler cfg proxies env lat ⟨"POST", .parses ⟨none⟩⟩ idx0 h0 t0 =
      ⟨400, .targetUrlRequired, []⟩) ∧
    (handler cfg proxies env lat ⟨"POST", .parses ⟨some ""⟩⟩ idx0 h0 t0 =
      ⟨400, .targetUrlRequired, []⟩) ∧
    (∀ u, u ≠ "" →
      (handler cfg proxies env lat ⟨"POST", .parses ⟨some u⟩⟩ idx0 h0 t0).headers =
        jsonCors) := by
  refine ⟨fun b => rfl, ?_, fun msg => rfl, rfl, rfl, ?_⟩
  · intro m b hm1 hm2
    unfold handler
    rw [if_neg hm1, if_pos hm2]
  · intro u hu
    rw [handler_post cfg proxies env lat u idx0 h0 t0 hu]
    exact runLoop_headers ..

/-- C7 witness: a concrete `GET` yields the headerless 405 and a concrete
valid `POST` carries exactly the two JSON/CORS headers. -/
theorem c7_witness :
    handler defaultConfig ["A"] (fun _ => .fail "x") (fun _ => 0)
      ⟨"GET", .parses ⟨none⟩⟩ (-1) [] 0 = ⟨405, .onlyPost, []⟩ ∧
    (handler defaultConfig ["A"] (fun _ => .fail "x") (fun _ => 0)
      ⟨"POST", .parses ⟨some "http://t"⟩⟩ (-1) [] 0).headers = jsonCors :=
  ⟨(c7_headers defaultConfig ["A"] (fun _ => .fail "x") (fun _ => 0) (-1) [] 0).2.1
     "GET" (.parses ⟨none⟩) (by decide) (by decide),
   (c7_headers defaultConfig ["A"] (fun _ => .fail "x") (fun _ => 0) (-1) [] 0).2.2.2.2.2
     "http://t" (by decide)⟩

/- ### C2: 5xx handling -/

/-- C2 counterexample: when no proxy is selected (here: the only proxy is
marked down), a 5xx response is returned directly — the run terminates
with status 503 after a single attempt, no retry — refuting the claim for
the no-proxy case. -/
theorem c2_counterexample :
    runAttempts defaultConfig ["A"] (fun _ => .resp ⟨503, some "", .ok "boom", .ok "x"⟩)
      (fun _ => 7) "http://t" (-1) [("A", 1000)] 0 =
      (⟨503, .upstreamErrorBody "boom", jsonCors⟩,
       [.attemptEv 0 none "http://t"], [("A", 1000)]) := by decide

/-- C2 amended: for every attempt whose upstream response is 5xx and for
which a proxy was selected, the loop does not terminate: it records the
error, marks that proxy down (making it unselectable for the whole
mark-down window), waits the exponential backoff, and continues with the
next attempt. -/
theorem c2_5xx_with_proxy_retries (cfg : Config) (l : List String) (env : Nat → FetchOutcome)
    (lat : Nat → Nat) (u : String) (fuel attempt : Nat) (st : LoopSt) (le : Option LastErr)
    (tr : List Ev) (r : UpResp) (p : String)
    (hpick : (pickNextProxy l st.health st.time st.idx).2 = some p)
    (henv : env attempt = .resp r) (h5a : 500 ≤ r.status) (h5b : r.status < 600) :
    runLoop cfg l env lat u (fuel+1) attempt st le tr =
      runLoop cfg l env lat u fuel (attempt+1)
        ⟨(pickNextProxy l st.health st.time st.idx).1,
         markProxyDown cfg st.health p (st.time + lat attempt),
         st.time + lat attempt + cfg.BACKOFF_BASE_MS * 2 ^ attempt⟩
        (some (.httpErr r.status (textOfRes r.textRes) (some p) (lat attempt)))
        (tr ++ [.attemptEv attempt (some p) (p ++ u),
          .waitEv (cfg.BACKOFF_BASE_MS * 2 ^ attempt)]) ∧
    healthLookup (markProxyDown cfg st.health p (st.time + lat attempt)) p =
      some (st.time + lat attempt + cfg.PROXY_MARK_DOWN_MS) ∧
    (∀ (t2 : Nat) (idx2 : Int), t2 < st.time + lat attempt + cfg.PROXY_MARK_DOWN_MS →
      (pickNextProxy l (markProxyDown cfg st.health p (st.time + lat attempt)) t2 idx2).2 ≠
        some p) := by
  have hclass : classifyAttempt (env attempt) (pickNextProxy l st.health st.time st.idx).2
      attempt (lat attempt) =
      .retryR (.httpErr r.status (textOfRes r.textRes) (some p) (lat attempt)) := by
    rw [henv, hpick]
    exact classifyAttempt_5xx_proxy r p attempt (lat attempt) h5a h5b
  refine ⟨?_, ?_, ?_⟩
  · have hstep := runLoop_retry_step cfg l env lat u fuel attempt st le tr _ hclass
    rw [hpick] at hstep
    exact hstep
  · rw [healthLookup_markProxyDown, if_pos rfl]
  · intro t2 idx2 hlt hsome
    have hs := pickNextProxy_sound _ _ _ _ _ hsome
    rw [isHealthy_markProxyDown_self] at hs
    simp only [decide_eq_true_eq] at hs
    omega

/-- C2 witness: a concrete 5xx through proxy `"A"` marks it down for
45 000 ms and hides it from selection inside the window. -/
theorem c2_witness :
    healthLookup (markProxyDown defaultConfig [] "A" (0 + 3)) "A" = some (0 + 3 + 45000) ∧
    (pickNextProxy ["A", "B"] (markProxyDown defaultConfig [] "A" (0 + 3)) 100 0).2 ≠
      some "A" := by
  have h := c2_5xx_with_proxy_retries defaultConfig ["A", "B"]
    (fun _ => .resp ⟨500, some "", .ok "e", .ok "d"⟩) (fun _ => 3) "u" 0 0 ⟨-1, [], 0⟩ none []
    ⟨500, some "", .ok "e", .ok "d"⟩ "A" (by decide) rfl (by decide) (by decide)
  exact ⟨h.2.1, h.2.2 100 0 (by decide)⟩

/- ### C3: non-retryable upstream errors -/

/-- C3 counterexample: the response body is not the upstream body
verbatim — a 404 with upstream body `"oops"` is returned with the wrapper
body `{"error":"Upstream returned error","details":"oops"}`. -/
theorem c3_counterexample :
    renderBody (handler defaultConfig ["P/"]
      (fun _ => .resp ⟨404, some "", .ok "oops", .ok "x"⟩) (fun _ => 2)
      ⟨"POST", .parses ⟨some "http://t"⟩⟩ (-1) [] 0).body ≠ "oops" ∧
    renderBody (handler defaultConfig ["P/"]
      (fun _ => .resp ⟨404, some "", .ok "oops", .ok "x"⟩) (fun _ => 2)
      ⟨"POST", .parses ⟨some "http://t"⟩⟩ (-1) [] 0).body =
      "\x7b\"error\":\"Upstream returned error\",\"details\":\"oops\"\x7d" := by decide

/-- C3 amended: when the first upstream attempt yields a non-2xx, non-5xx
status, the handler terminates after exactly that one attempt with the
upstream's status code and a JSON wrapper body carrying the upstream body
text in its `details` field (not the body verbatim), marking no proxy down
(the health map is returned unchanged). -/
theorem c3_client_error_terminal (cfg : Config) (l : List String) (env : Nat → FetchOutcome)
    (lat : Nat → Nat) (u : String) (idx0 : Int) (h0 : Health) (t0 : Nat) (r : UpResp)
    (henv : env 0 = .resp r) (hok : resOk r.status = false)
    (hn5 : ¬ (500 ≤ r.status ∧ r.status < 600)) (hR : 0 < cfg.MAX_RETRIES) (hu : u ≠ "") :
    handler cfg l env lat ⟨"POST", .parses ⟨some u⟩⟩ idx0 h0 t0 =
      ⟨r.status, .upstreamErrorBody (textOfRes r.textRes), jsonCors⟩ ∧
    (runAttempts cfg l env lat u idx0 h0 t0).2.1 =
      [.attemptEv 0 (pickNextProxy l h0 t0 idx0).2
        (finalUrlOf (pickNextProxy l h0 t0 idx0).2 u)] ∧
    (runAttempts cfg l env lat u idx0 h0 t0).2.2 = h0 ∧
    countAttempts (runAttempts cfg l env lat u idx0 h0 t0).2.1 = 1 := by
  obtain ⟨m, hmr⟩ : ∃ m, cfg.MAX_RETRIES = m + 1 := ⟨cfg.MAX_RETRIES - 1, by omega⟩
  have h5 : (decide (500 ≤ r.status) && decide (r.status < 600)) = false := by
    rcases not_and_or.mp hn5 with h | h
    · simp [h]
    · simp [h]
  have hcond : ((pickNextProxy l h0 t0 idx0).2.isSome &&
      (decide (500 ≤ r.status) && decide (r.status < 600))) = false := by
    rw [h5, Bool.and_false]
  have hclass : classifyAttempt (env 0) (pickNextProxy l h0 t0 idx0).2 0 (lat 0) =
      .doneR ⟨r.status, .upstreamErrorBody (textOfRes r.textRes), jsonCors⟩ := by
    rw [henv]
    exact classifyAttempt_client_error r _ 0 (lat 0) hok hcond
  have hrun : runAttempts cfg l env lat u idx0 h0 t0 =
      (⟨r.status, .upstreamErrorBody (textOfRes r.textRes), jsonCors⟩,
       [.attemptEv 0 (pickNextProxy l h0 t0 idx0).2
         (finalUrlOf (pickNextProxy l h0 t0 idx0).2 u)],
       h0) := by
    unfold runAttempts
    rw [hmr]
    have hstep := runLoop_done_step cfg l env lat u m 0 ⟨idx0, h0, t0⟩ none [] _ hclass
    simpa using hstep
  refine ⟨?_, ?_, ?_, ?_⟩
  · rw [handler_post cfg l env lat u idx0 h0 t0 hu, hrun]
  · rw [hrun]
  · rw [hrun]
  · rw [hrun]
    rfl

/-- C3 witness: a 404 with body `"nope"` terminates the run at once. -/
theorem c3_witness :
    handler defaultConfig ["P/"] (fun _ => .resp ⟨404, some "", .ok "nope", .ok "x"⟩)
      (fun _ => 2) ⟨"POST", .parses ⟨some "http://t"⟩⟩ (-1) [] 0 =
      ⟨404, .upstreamErrorBody "nope", jsonCors⟩ ∧
    countAttempts (runAttempts defaultConfig ["P/"]
      (fun _ => .resp ⟨404, some "", .ok "nope", .ok "x"⟩) (fun _ => 2)
      "http://t" (-1) [] 0).2.1 = 1 := by
  have h := c3_client_error_terminal defaultConfig ["P/"]
    (fun _ => .resp ⟨404, some "", .ok "nope", .ok "x"⟩) (fun _ => 2) "http://t" (-1) [] 0
    ⟨404, some "", .ok "nope", .ok "x"⟩ rfl (by decide) (by decide) (by decide) (by decide)
  exact ⟨h.1, h.2.2.2⟩

/- ### C10: unparsable JSON on a 2xx response -/

theorem runLoop_json_throw_exhausts (cfg : Config) (l : List String)
    (env : Nat → FetchOutcome) (lat : Nat → Nat) (u : String)
    (rf : Nat → UpResp) (hm : Nat → String)
    (henv : ∀ k, env k = .resp (rf k)) (hok : ∀ k, resOk (rf k).status = true)
    (hct : ∀ k, strIncludes ((rf k).contentType.getD "") "application/json" = true)
    (hjs : ∀ k, (rf k).jsonRes = .error (hm k)) :
    ∀ (fuel attempt : Nat) (st : LoopSt) (le : Option LastErr) (tr : List Ev),
      ((runLoop cfg l env lat u fuel attempt st le tr).1.statusCode = 502) ∧
      (fuel = 0 → (runLoop cfg l env lat u fuel attempt st le tr).1.body = .allFailed le) ∧
      (1 ≤ fuel → ∃ pr, (runLoop cfg l env lat u fuel attempt st le tr).1.body =
        .allFailed (some (.excErr (hm (attempt + fuel - 1)) pr (attempt + fuel - 1)))) := by
  intro fuel
  induction fuel with
  | zero =>
    intro attempt st le tr
    exact ⟨rfl, fun _ => rfl, fun hc => absurd hc (by omega)⟩
  | succ m ih =>
    intro attempt st le tr
    have hclass : classifyAttempt (env attempt) (pickNextProxy l st.health st.time st.idx).2
        attempt (lat attempt) =
        .retryR (.excErr (hm attempt) (pickNextProxy l st.health st.time st.idx).2 attempt) := by
      rw [henv attempt]
      exact classifyAttempt_json_throw (rf attempt) _ attempt (lat attempt) (hm attempt)
        (hok attempt) (hct attempt) (hjs attempt)
    rw [runLoop_retry_step cfg l env lat u m attempt st le tr _ hclass]
    refine ⟨(ih ..).1, fun hc => absurd hc (by omega), fun _ => ?_⟩
    rcases Nat.eq_zero_or_pos m with hm0 | hmpos
    · subst hm0
      refine ⟨(pickNextProxy l st.health st.time st.idx).2, ?_⟩
      have hz := (ih (attempt + 1) ⟨(pickNextProxy l st.health st.time st.idx).1,
        (match (pickNextProxy l st.health st.time st.idx).2 with
          | some p => markProxyDown cfg st.health p (st.time + lat attempt)
          | none => st.health),
        st.time + lat attempt + cfg.BACKOFF_BASE_MS * 2 ^ attempt⟩
        (some (.excErr (hm attempt) (pickNextProxy l st.health st.time st.idx).2 attempt))
        (tr ++ [.attemptEv attempt (pickNextProxy l st.health st.time st.idx).2
            (finalUrlOf (pickNextProxy l st.health st.time st.idx).2 u),
          .waitEv (cfg.BACKOFF_BASE_MS * 2 ^ attempt)])).2.1 rfl
      rw [hz]
      have harith : attempt + (0 + 1) - 1 = attempt := by omega
      rw [harith]
    · obtain ⟨pr, hpr⟩ := (ih (attempt + 1) ⟨(pickNextProxy l st.health st.time st.idx).1,
        (match (pickNextProxy l st.health st.time st.idx).2 with
          | some p => markProxyDown cfg st.health p (st.time + lat attempt)
          | none => st.health),
        st.time + lat attempt + cfg.BACKOFF_BASE_MS * 2 ^ attempt⟩
        (some (.excErr (hm attempt) (pickNextProxy l st.health st.time st.idx).2 attempt))
        (tr ++ [.attemptEv attempt (pickNextProxy l st.health st.time st.idx).2
            (finalUrlOf (pickNextProxy l st.health st.time st.idx).2 u),
          .waitEv (cfg.BACKOFF_BASE_MS * 2 ^ attempt)])).2.2 hmpos
      refine ⟨pr, ?_⟩
      rw [hpr]
      have harith : attempt + 1 + m - 1 = attempt + (m + 1) - 1 := by omega
      rw [harith]

/-- C10: a 2xx upstream response declaring JSON whose body fails to parse
is handled exactly like a network failure (same classification as a fetch
rejection with the thrown message), so a run whose upstream always answers
2xx with unparsable JSON exhausts all attempts and ends in the 502
response carrying the last thrown message. -/
theorem c10_unparsable_json_2xx (cfg : Config) (l : List String) (env : Nat → FetchOutcome)
    (lat : Nat → Nat) (u : String) (idx0 : Int) (h0 : Health) (t0 : Nat)
    (rf : Nat → UpResp) (hm : Nat → String)
    (henv : ∀ k, env k = .resp (rf k)) (hok : ∀ k, resOk (rf k).status = true)
    (hct : ∀ k, strIncludes ((rf k).contentType.getD "") "application/json" = true)
    (hjs : ∀ k, (rf k).jsonRes = .error (hm k)) (hR : 0 < cfg.MAX_RETRIES) :
    (∀ (k a lt2 : Nat) (pOpt : Option String),
      classifyAttempt (env k) pOpt a lt2 = classifyAttempt (.fail (hm k)) pOpt a lt2) ∧
    (runAttempts cfg l env lat u idx0 h0 t0).1.statusCode = 502 ∧
    (∃ pr, (runAttempts cfg l env lat u idx0 h0 t0).1.body =
      .allFailed (some (.excErr (hm (cfg.MAX_RETRIES - 1)) pr (cfg.MAX_RETRIES - 1)))) := by
  have hall := runLoop_json_throw_exhausts cfg l env lat u rf hm henv hok hct hjs
  refine ⟨?_, ?_, ?_⟩
  · intro k a lt2 pOpt
    rw [henv k]
    rw [classifyAttempt_json_throw (rf k) pOpt a lt2 (hm k) (hok k) (hct k) (hjs k)]
    rfl
  · exact (hall cfg.MAX_RETRIES 0 ⟨idx0, h0, t0⟩ none []).1
  · have h2 := (hall cfg.MAX_RETRIES 0 ⟨idx0, h0, t0⟩ none []).2.2 hR
    rwa [Nat.zero_add] at h2

/-- C10 witness: a run whose upstream always answers 200
`application/json` with a body whose parse throws `"bad json"` ends in the
502 exhaustion response. -/
theorem c10_witness :
    (runAttempts defaultConfig ["A"]
      (fun _ => .resp ⟨200, some "application/json", .ok "t", .error "bad json"⟩)
      (fun _ => 1) "u" (-1) [] 0).1.statusCode = 502 ∧
    (∃ pr, (runAttempts defaultConfig ["A"]
      (fun _ => .resp ⟨200, some "application/json", .ok "t", .error "bad json"⟩)
      (fun _ => 1) "u" (-1) [] 0).1.body =
      .allFailed (some (.excErr "bad json" pr 3))) := by
  have h := c10_unparsable_json_2xx defaultConfig ["A"]
    (fun _ => .resp ⟨200, some "application/json", .ok "t", .error "bad json"⟩)
    (fun _ => 1) "u" (-1) [] 0
    (fun _ => ⟨200, some "application/json", .ok "t", .error "bad json"⟩)
    (fun _ => "bad json") (fun _ => rfl) (fun _ => rfl) (fun _ => rfl)
    (fun _ => rfl) (by decide)
  exact ⟨h.2.1, h.2.2⟩

/- ### C1: exhaustion under persistent 5xx -/

/-- Core induction for C1: under an all-5xx upstream, a `Nodup` pool at
least as large as the remaining attempt budget, and a health map whose
entries are either expired (≤ the reference time) or proxies already
picked in this run, each attempt `k` picks the fresh proxy `proxyAt l A k`
at its first candidate, marks it down, waits the exponential backoff, and
the loop ends in the 502 exhaustion response carrying the last attempt's
error record, with the full trace accounted for. -/
theorem runLoop_all_5xx (cfg : Config) (l : List String) (env : Nat → FetchOutcome)
    (lat : Nat → Nat) (u : String) (rs : Nat → UpResp)
    (henv : ∀ k, env k = .resp (rs k))
    (h5 : ∀ k, 500 ≤ (rs k).status ∧ (rs k).status < 600)
    (hnodup : l.Nodup) (hRn : cfg.MAX_RETRIES ≤ l.length) (t0 : Nat) (A : Nat) :
    ∀ (fuel attempt : Nat) (st : LoopSt) (le : Option LastErr) (tr : List Ev),
      attempt + fuel = cfg.MAX_RETRIES →
      (∃ a : Nat, st.idx + 1 = (a : Int) ∧ a % l.length = (A + attempt) % l.length) →
      (∀ q ∈ l, ∀ d, healthLookup st.health q = some d →
        d ≤ t0 ∨ ∃ j, j < attempt ∧ q = proxyAt l A j) →
      t0 ≤ st.time →
      ((fuel = 0 →
        (runLoop cfg l env lat u fuel attempt st le tr).1 =
          ⟨502, .allFailed le, jsonCors⟩) ∧
       (1 ≤ fuel →
        (runLoop cfg l env lat u fuel attempt st le tr).1 =
          ⟨502, .allFailed (some (lastErrAt rs lat l A (cfg.MAX_RETRIES - 1))), jsonCors⟩) ∧
       (runLoop cfg l env lat u fuel attempt st le tr).2.1 =
         tr ++ c1TraceFrom cfg l u A attempt fuel) := by
  intro fuel
  induction fuel with
  | zero =>
    intro attempt st le tr _hfa _hex _hinv _htime
    refine ⟨fun _ => rfl, fun hc => absurd hc (by omega), ?_⟩
    show tr = tr ++ c1TraceFrom cfg l u A attempt 0
    simp [c1TraceFrom]
  | succ m ih =>
    intro attempt st le tr hfa hex hinv htime
    obtain ⟨a, ha1, ha2⟩ := hex
    have hattR : attempt < cfg.MAX_RETRIES := by omega
    have hlen : 0 < l.length := by omega
    have hmem : proxyAt l A attempt ∈ l := getD_mem l _ (Nat.mod_lt _ hlen)
    have hinj : ∀ i j, i < cfg.MAX_RETRIES → j < cfg.MAX_RETRIES →
        proxyAt l A i = proxyAt l A j → i = j := by
      intro i j hi hj he
      have h1 : (A + i) % l.length = (A + j) % l.length :=
        getD_inj_of_nodup l hnodup _ _ (Nat.mod_lt _ hlen) (Nat.mod_lt _ hlen) he
      exact add_mod_inj l.length A i j (by omega) (by omega) h1
    have hhl : isHealthy st.health st.time (proxyAt l A attempt) = true := by
      unfold isHealthy
      cases hlu : healthLookup st.health (proxyAt l A attempt) with
      | none => rfl
      | some d =>
        rcases hinv (proxyAt l A attempt) hmem d hlu with hle | ⟨j, hj, he⟩
        · simp only [decide_eq_true_eq]
          omega
        · exact absurd (hinj attempt j hattR (by omega) he) (by omega)
    have hh2 : isHealthy st.health st.time (l.getD (a % l.length) "") = true := by
      rw [ha2]
      exact hhl
    have hpick := pickNextProxy_healthy_nat l st.health st.time a st.idx ha1 hlen hh2
    have hpick2 : pickNextProxy l st.health st.time st.idx =
        ((((A + attempt) % l.length : Nat) : Int), some (proxyAt l A attempt)) := by
      rw [hpick, ha2]
      rfl
    have hclass : classifyAttempt (env attempt)
        (pickNextProxy l st.health st.time st.idx).2 attempt (lat attempt) =
        .retryR (lastErrAt rs lat l A attempt) := by
      rw [henv attempt, hpick2]
      exact classifyAttempt_5xx_proxy (rs attempt) (proxyAt l A attempt) attempt (lat attempt)
        (h5 attempt).1 (h5 attempt).2
    rw [runLoop_retry_step cfg l env lat u m attempt st le tr _ hclass, hpick2]
    have hIH := ih (attempt + 1)
      ⟨((((A + attempt) % l.length : Nat)) : Int),
       markProxyDown cfg st.health (proxyAt l A attempt) (st.time + lat attempt),
       st.time + lat attempt + cfg.BACKOFF_BASE_MS * 2 ^ attempt⟩
      (some (lastErrAt rs lat l A attempt))
      (tr ++ [Ev.attemptEv attempt (some (proxyAt l A attempt)) (proxyAt l A attempt ++ u),
        Ev.waitEv (cfg.BACKOFF_BASE_MS * 2 ^ attempt)])
      (by omega)
      ⟨(A + attempt) % l.length + 1, by push_cast; ring,
        by rw [Nat.mod_add_mod, Nat.add_assoc]⟩
      (by
        intro q hq d hd
        rw [healthLookup_markProxyDown] at hd
        by_cases hqc : q = proxyAt l A attempt
        · exact Or.inr ⟨attempt, by omega, hqc⟩
        · rw [if_neg hqc] at hd
          rcases hinv q hq d hd with hle | ⟨j, hj, he⟩
          · exact Or.inl hle
          · exact Or.inr ⟨j, by omega, he⟩)
      (le_trans htime (le_trans (Nat.le_add_right ..) (Nat.le_add_right ..)))
    refine ⟨fun hc => absurd hc (by omega), fun _ => ?_, ?_⟩
    · rcases m with _ | m2
      · have hatt : lastErrAt rs lat l A attempt =
            lastErrAt rs lat l A (cfg.MAX_RETRIES - 1) := by
          have : attempt = cfg.MAX_RETRIES - 1 := by omega
          rw [this]
        rw [← hatt]
        exact hIH.1 rfl
      · exact hIH.2.1 (by omega)
    · have htr := hIH.2.2
      rw [c1TraceFrom_succ]
      simp only [List.append_assoc, List.cons_append, List.nil_append] at htr
      exact htr

/-- C1: with an all-5xx upstream, a duplicate-free pool of at least
`MAX_RETRIES` healthy proxies, and a positive backoff base, the handler
performs exactly `MAX_RETRIES` attempts, each attempt `k` using the
round-robin proxy `proxyAt l (idx0+1).toNat k` (pairwise distinct across
attempts), waiting `BACKOFF_BASE_MS * 2 ^ k` between attempts (strictly
increasing), and returns the 502 response
`{ error: 'All attempts failed', lastError: <last recorded outcome> }`. -/
theorem c1_exhaustion_5xx (cfg : Config) (l : List String) (env : Nat → FetchOutcome)
    (lat : Nat → Nat) (u : String) (idx0 : Int) (h0 : Health) (t0 : Nat) (rs : Nat → UpResp)
    (henv : ∀ k, env k = .resp (rs k))
    (h5 : ∀ k, 500 ≤ (rs k).status ∧ (rs k).status < 600)
    (hnodup : l.Nodup) (hRn : cfg.MAX_RETRIES ≤ l.length) (hR : 0 < cfg.MAX_RETRIES)
    (hidx : -1 ≤ idx0) (hh0 : ∀ p ∈ l, isHealthy h0 t0 p = true)
    (hu : u ≠ "") (hbase : 0 < cfg.BACKOFF_BASE_MS) :
    handler cfg l env lat ⟨"POST", .parses ⟨some u⟩⟩ idx0 h0 t0 =
      ⟨502, .allFailed (some (lastErrAt rs lat l (idx0 + 1).toNat (cfg.MAX_RETRIES - 1))),
       jsonCors⟩ ∧
    (runAttempts cfg l env lat u idx0 h0 t0).2.1 =
      c1TraceFrom cfg l u (idx0 + 1).toNat 0 cfg.MAX_RETRIES ∧
    countAttempts (runAttempts cfg l env lat u idx0 h0 t0).2.1 = cfg.MAX_RETRIES ∧
    (∀ i j, i < cfg.MAX_RETRIES → j < cfg.MAX_RETRIES → i ≠ j →
      proxyAt l (idx0 + 1).toNat i ≠ proxyAt l (idx0 + 1).toNat j) ∧
    (∀ i j, i < j → j < cfg.MAX_RETRIES →
      cfg.BACKOFF_BASE_MS * 2 ^ i < cfg.BACKOFF_BASE_MS * 2 ^ j) := by
  have h0a : 0 ≤ idx0 + 1 := by omega
  have ha1 : idx0 + 1 = (((idx0 + 1).toNat : Nat) : Int) := (Int.toNat_of_nonneg h0a).symm
  have hlen : 0 < l.length := by omega
  have hmain := runLoop_all_5xx cfg l env lat u rs henv h5 hnodup hRn t0 (idx0 + 1).toNat
    cfg.MAX_RETRIES 0 ⟨idx0, h0, t0⟩ none []
    (by omega)
    ⟨(idx0 + 1).toNat, ha1, rfl⟩
    (by
      intro q hq d hd
      left
      have hh := hh0 q hq
      unfold isHealthy at hh
      rw [hd] at hh
      simpa using hh)
    (Nat.le_refl t0)
  refine ⟨?_, ?_, ?_, ?_, ?_⟩
  · rw [handler_post cfg l env lat u idx0 h0 t0 hu]
    exact hmain.2.1 hR
  · simpa using hmain.2.2
  · have htr := hmain.2.2
    simp only [List.nil_append] at htr
    show countAttempts (runLoop cfg l env lat u cfg.MAX_RETRIES 0 ⟨idx0, h0, t0⟩ none []).2.1 =
      cfg.MAX_RETRIES
    rw [htr, countAttempts_c1TraceFrom]
  · intro i j hi hj hne he
    have h1 : ((idx0 + 1).toNat + i) % l.length = ((idx0 + 1).toNat + j) % l.length :=
      getD_inj_of_nodup l hnodup _ _ (Nat.mod_lt _ hlen) (Nat.mod_lt _ hlen) he
    exact hne (add_mod_inj l.length (idx0 + 1).toNat i j (by omega) (by omega) h1)
  · intro i j hij _hj
    exact mul_lt_mul_of_pos_left (Nat.pow_lt_pow_right (by omega) hij) hbase

/-- C1 witness: the default configuration against an upstream that always
answers 500 exhausts all four attempts over the four-proxy pool and
returns the 502 exhaustion response recording the last attempt. -/
theorem c1_witness :
    handler defaultConfig ["A", "B", "C", "D"]
      (fun _ => .resp ⟨500, some "", .ok "srv", .ok "x"⟩) (fun _ => 5)
      ⟨"POST", .parses ⟨some "u"⟩⟩ (-1) [] 0 =
      ⟨502, .allFailed (some (.httpErr 500 "srv" (some "D") 5)), jsonCors⟩ ∧
    countAttempts (runAttempts defaultConfig ["A", "B", "C", "D"]
      (fun _ => .resp ⟨500, some "", .ok "srv", .ok "x"⟩) (fun _ => 5)
      "u" (-1) [] 0).2.1 = 4 := by
  have h := c1_exhaustion_5xx defaultConfig ["A", "B", "C", "D"]
    (fun _ => .resp ⟨500, some "", .ok "srv", .ok "x"⟩) (fun _ => 5) "u" (-1) [] 0
    (fun _ => ⟨500, some "", .ok "srv", .ok "x"⟩)
    (fun _ => rfl)
    (fun _ => ⟨by show (500 : Nat) ≤ 500; omega, by show (500 : Nat) < 600; omega⟩)
    (by decide) (by decide) (by decide) (by decide)
    (fun _ _ => rfl) (by decide) (by decide)
  exact ⟨h.1, h.2.2.1⟩

